import Mathlib

/-!
Shallow embedding of `src/mcp_reddit/reddit_fetcher.py` and proofs about it.

Python strings are modelled as `List Char` (`Str`).  The Reddit client is
modelled as `Except`-valued capabilities passed to the entry points, and the
local timezone used by `datetime.fromtimestamp` is an explicit offset
parameter `tz` (seconds east of UTC).  Python-specific behaviours are embedded
explicitly: the truthiness of `x or y` on optional strings, `f"...{None}..."`
rendering the text `None`, and `str(n)` on integers.
-/

namespace McpReddit

/-- Python `str` values, modelled as lists of characters. -/
abbrev Str := List Char

/-- Embed a Lean string literal as a `Str`. -/
def str (s : String) : Str := s.data

/-- The newline character. -/
def nl : Char := '\n'

/-- Decimal digit character, used by the embedding of Python `str(n)`.
Arguments `10` and above never arise (callers pass `n % 10` or `n < 10`). -/
def digitChar : Nat → Char
  | 0 => '0'
  | 1 => '1'
  | 2 => '2'
  | 3 => '3'
  | 4 => '4'
  | 5 => '5'
  | 6 => '6'
  | 7 => '7'
  | 8 => '8'
  | 9 => '9'
  | _ + 10 => '*'

/-- Fuel-driven digit accumulation for the embedding of Python `str(n)`
on natural numbers.  The fuel `n + 1` always suffices. -/
def natStrCore : Nat → Nat → Str → Str
  | 0, _, acc => acc
  | fuel + 1, n, acc =>
    if n < 10 then digitChar n :: acc
    else natStrCore fuel (n / 10) (digitChar (n % 10) :: acc)

/-- Embedding of Python `str(n)` for a natural number. -/
def natStr (n : Nat) : Str := natStrCore (n + 1) n []

/-- Embedding of Python `str(n)` for an integer. -/
def intStr : Int → Str
  | .ofNat n => natStr n
  | .negSucc m => '-' :: natStr (m + 1)

/-- Left-pad with zeros to the given width (strftime zero padding). -/
def padZeros (w : Nat) (s : Str) : Str := List.replicate (w - s.length) '0' ++ s

/-- Civil (proleptic Gregorian) date from days since the Unix epoch,
as computed by Python's `datetime` for timestamps. -/
def civilFromDays (z0 : Int) : Int × Nat × Nat :=
  let z := z0 + 719468
  let era : Int := Int.fdiv z 146097
  let doe : Nat := (z - era * 146097).toNat
  let yoe : Nat := (doe - doe / 1460 + doe / 36524 - doe / 146096) / 365
  let doy : Nat := doe - (365 * yoe + yoe / 4 - yoe / 100)
  let mp : Nat := (5 * doy + 2) / 153
  let d : Nat := doy - (153 * mp + 2) / 5 + 1
  let m : Nat := if mp < 10 then mp + 3 else mp - 9
  ((yoe : Int) + era * 400 + (if m ≤ 2 then 1 else 0), m, d)

/-- Embedding of `_format_date`, i.e. Python's
`datetime.fromtimestamp(timestamp).strftime("%Y-%m-%d %H:%M:%S UTC")`.
`datetime.fromtimestamp` converts to local civil time, so the local offset
from UTC (in seconds) is the explicit parameter `tz`; the literal suffix
`" UTC"` is appended regardless of that offset (the documented quirk). -/
def format_date (tz : Int) (timestamp : Int) : Str :=
  let loc := timestamp + tz
  let days := Int.fdiv loc 86400
  let sod := (loc - days * 86400).toNat
  let c := civilFromDays days
  padZeros 4 (intStr c.1) ++ str "-" ++ padZeros 2 (natStr c.2.1) ++ str "-" ++
    padZeros 2 (natStr c.2.2) ++ str " " ++ padZeros 2 (natStr (sod / 3600)) ++ str ":" ++
    padZeros 2 (natStr (sod % 3600 / 60)) ++ str ":" ++ padZeros 2 (natStr (sod % 60)) ++
    str " UTC"

/-- A comment record: the fields of the redditwarp comment object that the
code reads. -/
structure Comment where
  author_display_name : Option Str
  created_ut : Int
  score : Int
  body : Str
deriving DecidableEq

/-- A node of the comment tree: a comment together with its direct replies
(redditwarp's `CommentTreeNode` as used by the code). -/
inductive CommentTreeNode where
  | mk (value : Comment) (children : List CommentTreeNode)

/-- The comment stored at a node. -/
def CommentTreeNode.value : CommentTreeNode → Comment
  | .mk v _ => v

/-- The direct replies of a node. -/
def CommentTreeNode.children : CommentTreeNode → List CommentTreeNode
  | .mk _ c => c

/-- Python truthiness-based `x or default` on an optional string:
`None` and the empty string are falsy. -/
def py_or (x : Option Str) (dflt : Str) : Str :=
  match x with
  | none => dflt
  | some s => if s = [] then dflt else s

/-- Embedding of `"    " * depth`. -/
def indentStr (depth : Nat) : Str := (List.replicate depth (str "    ")).flatten

/-- Ordering used by
`sorted(comment_node.children, key=lambda r: r.value.created_ut, reverse=True)`:
`a` may come before `b` iff `a` is at least as new as `b`. -/
def created_desc (a b : CommentTreeNode) : Prop :=
  b.value.created_ut ≤ a.value.created_ut

instance : DecidableRel created_desc := fun a b =>
  inferInstanceAs (Decidable (b.value.created_ut ≤ a.value.created_ut))

instance : IsTotal CommentTreeNode created_desc := ⟨fun a b => Int.le_total b.value.created_ut a.value.created_ut⟩

instance : IsTrans CommentTreeNode created_desc := ⟨fun _ _ _ h₁ h₂ => le_trans h₂ h₁⟩

/-- Embedding of `sorted(comment_node.children, key=..., reverse=True)`:
a sort of the direct replies, newest first (the spec explicitly does not
rely on stability, so any descending sort is a faithful model). -/
def sort_replies (l : List CommentTreeNode) : List CommentTreeNode :=
  List.insertionSort created_desc l

/-- Embedding of `_format_comment_tree`. -/
def format_comment_tree (tz : Int) : CommentTreeNode → Nat → Str
  | .mk comment children, depth =>
    let author_name := py_or comment.author_display_name (str "[deleted]")
    let created_date := format_date tz comment.created_ut
    let indent := indentStr depth
    (indent ++ created_date ++ str " [" ++ author_name ++ str "] Score: " ++
        intStr comment.score ++ [nl]) ++
      (indent ++ comment.body ++ [nl]) ++
      ((sort_replies children).attach.map (fun ch =>
        indent ++ str "> " ++ format_comment_tree tz ch.1 (depth + 1))).flatten
termination_by t _ => sizeOf t
decreasing_by
  have hmem : ch.1 ∈ children :=
    ((List.perm_insertionSort created_desc children).mem_iff).mp ch.2
  have hlt := List.sizeOf_lt_of_mem hmem
  simp only [CommentTreeNode.mk.sizeOf_spec]
  omega

/-- Unfolding of `format_comment_tree` with the membership bookkeeping of the
recursion removed. -/
theorem format_comment_tree_eq (tz : Int) (comment : Comment)
    (children : List CommentTreeNode) (depth : Nat) :
    format_comment_tree tz (.mk comment children) depth =
      (indentStr depth ++ format_date tz comment.created_ut ++ str " [" ++
        py_or comment.author_display_name (str "[deleted]") ++ str "] Score: " ++
        intStr comment.score ++ [nl]) ++
      (indentStr depth ++ comment.body ++ [nl]) ++
      ((sort_replies children).map (fun ch =>
        indentStr depth ++ str "> " ++ format_comment_tree tz ch (depth + 1))).flatten := by
  rw [format_comment_tree]
  simp [List.pmap_eq_map]

/-! Splitting a rendered block into its newline-terminated lines. -/

/-- Worker for `linesOf`: `acc` holds the (reversed) characters of the line
being read. -/
def lines_go : Str → Str → List Str
  | [], acc => if acc.isEmpty then [] else [acc.reverse]
  | c :: rest, acc =>
    if c = nl then acc.reverse :: lines_go rest [] else lines_go rest (c :: acc)

/-- The lines of a string: maximal `'\n'`-free segments; a trailing newline
does not contribute an empty final line. -/
def linesOf (s : Str) : List Str := lines_go s []

theorem lines_go_append (x y : Str) (acc : Str) (hx : nl ∉ x) :
    lines_go (x ++ nl :: y) acc = (acc.reverse ++ x) :: lines_go y [] := by
  induction x generalizing acc with
  | nil =>
    simp [lines_go]
  | cons c rest ih =>
    have hc : c ≠ nl := fun h => hx (h ▸ List.mem_cons_self c rest)
    have hrest : nl ∉ rest := fun h => hx (List.mem_cons_of_mem c h)
    simp [lines_go, hc, ih _ hrest]

/-- Peeling one newline-terminated line off the front of a block. -/
theorem linesOf_append (x y : Str) (hx : nl ∉ x) :
    linesOf (x ++ nl :: y) = x :: linesOf y := by
  simp [linesOf, lines_go_append x y [] hx]

theorem linesOf_nil : linesOf [] = [] := rfl

/-! The characters produced by the numeric and date renderers are never
newlines; these facts let line-level statements be proved unconditionally
for the machine-generated parts of a rendered comment. -/

theorem digitChar_ne_nl (k : Nat) : digitChar k ≠ nl := by
  rcases k with _ | _ | _ | _ | _ | _ | _ | _ | _ | _ | k <;> simp [digitChar, nl]

theorem natStrCore_ne_nl (fuel n : Nat) (acc : Str) (hacc : nl ∉ acc) :
    nl ∉ natStrCore fuel n acc := by
  induction fuel generalizing n acc with
  | zero => simpa [natStrCore] using hacc
  | succ fuel ih =>
    by_cases h : n < 10
    · simp only [natStrCore, h, if_pos]
      intro hmem
      rcases List.mem_cons.mp hmem with h' | h'
      · exact digitChar_ne_nl n h'.symm
      · exact hacc h'
    · simp only [natStrCore, h, if_neg, not_false_iff]
      apply ih
      intro hmem
      rcases List.mem_cons.mp hmem with h' | h'
      · exact digitChar_ne_nl (n % 10) h'.symm
      · exact hacc h'

theorem natStr_ne_nl (n : Nat) : nl ∉ natStr n :=
  natStrCore_ne_nl (n + 1) n [] (by simp)

theorem intStr_ne_nl (n : Int) : nl ∉ intStr n := by
  cases n with
  | ofNat m => exact natStr_ne_nl m
  | negSucc m =>
    intro hmem
    rcases List.mem_cons.mp hmem with h' | h'
    · simp [nl] at h'
    · exact natStr_ne_nl (m + 1) h'

theorem padZeros_ne_nl (w : Nat) (s : Str) (hs : nl ∉ s) : nl ∉ padZeros w s := by
  intro hmem
  rcases List.mem_append.mp hmem with h' | h'
  · have := List.eq_of_mem_replicate h'
    simp [nl] at this
  · exact hs h'

theorem format_date_ne_nl (tz ts : Int) : nl ∉ format_date tz ts := by
  intro hmem
  simp only [format_date, List.append_assoc, List.mem_append] at hmem
  rcases hmem with h | h
  · exact padZeros_ne_nl 4 _ (intStr_ne_nl _) h
  · rcases h with h | h
    · simp [str, nl] at h
    · rcases h with h | h
      · exact padZeros_ne_nl 2 _ (natStr_ne_nl _) h
      · rcases h with h | h
        · simp [str, nl] at h
        · rcases h with h | h
          · exact padZeros_ne_nl 2 _ (natStr_ne_nl _) h
          · rcases h with h | h
            · simp [str, nl] at h
            · rcases h with h | h
              · exact padZeros_ne_nl 2 _ (natStr_ne_nl _) h
              · rcases h with h | h
                · simp [str, nl] at h
                · rcases h with h | h
                  · exact padZeros_ne_nl 2 _ (natStr_ne_nl _) h
                  · rcases h with h | h
                    · simp [str, nl] at h
                    · rcases h with h | h
                      · exact padZeros_ne_nl 2 _ (natStr_ne_nl _) h
                      · simp [str, nl] at h

theorem indentStr_ne_nl (depth : Nat) : nl ∉ indentStr depth := by
  intro hmem
  rcases List.mem_flatten.mp hmem with ⟨l, hl, hmem'⟩
  have := List.eq_of_mem_replicate hl
  subst this
  simp [str, nl] at hmem'

/-- Structural strong induction over comment trees (the nested `List` of
children makes the auto-generated recursor awkward to use directly). -/
theorem CommentTreeNode.ind (P : CommentTreeNode → Prop)
    (h : ∀ comment children, (∀ t ∈ children, P t) → P (.mk comment children)) :
    ∀ t, P t := by
  have key : ∀ n t, sizeOf t ≤ n → P t := by
    intro n
    induction n with
    | zero =>
      intro t ht
      cases t with
      | mk c children =>
        simp only [CommentTreeNode.mk.sizeOf_spec] at ht
        omega
    | succ n ihn =>
      intro t ht
      cases t with
      | mk c children =>
        apply h
        intro x hx
        apply ihn
        have hlt := List.sizeOf_lt_of_mem hx
        simp only [CommentTreeNode.mk.sizeOf_spec] at ht
        omega
  exact fun t => key (sizeOf t) t le_rfl

/-- Concatenating blocks that each end in a newline keeps a final newline. -/
theorem flatten_getLast?_or (L : List Str)
    (hL : ∀ b ∈ L, b.getLast? = some nl) :
    ((L.flatten.getLast?).or (some nl)) = some nl := by
  induction L with
  | nil => rfl
  | cons b L ih =>
    have hb := hL b (List.mem_cons_self b L)
    have ih' := ih (fun x hx => hL x (List.mem_cons_of_mem _ hx))
    simp only [List.flatten_cons, List.getLast?_append, hb]
    cases hfl : L.flatten.getLast? with
    | none => simp
    | some x =>
      rw [hfl] at ih'
      simp only [Option.or_some] at ih'
      simp [ih']

/-- Every rendered comment block ends with a newline character. -/
theorem format_comment_tree_getLast (tz : Int) :
    ∀ t : CommentTreeNode, ∀ depth : Nat,
      (format_comment_tree tz t depth).getLast? = some nl := by
  intro t
  induction t using CommentTreeNode.ind with
  | h comment children ih =>
    intro depth
    rw [format_comment_tree_eq]
    have hblocks : ∀ b ∈ (sort_replies children).map
        (fun ch => indentStr depth ++ str "> " ++ format_comment_tree tz ch (depth + 1)),
        b.getLast? = some nl := by
      intro b hb
      rcases List.mem_map.mp hb with ⟨ch, hch, rfl⟩
      have hch' : ch ∈ children :=
        (List.perm_insertionSort created_desc children).mem_iff.mp hch
      have hend := ih ch hch' (depth + 1)
      simp [List.getLast?_append, hend]
    have hor := flatten_getLast?_or _ hblocks
    have hB : (indentStr depth ++ comment.body ++ [nl]).getLast? = some nl := by
      simp [List.getLast?_append]
    rw [List.getLast?_append, List.getLast?_append, hB]
    simpa only [Option.or_some] using hor

/-! URL resolution: the embedding of `re.search(r"/comments/([^/]+)", reddit_url)`
inside `fetch_reddit_post_from_url`. -/

/-- The literal path segment searched for by the regex. -/
def comments_pat : Str := str "/comments/"

/-- Match the pattern `/comments/([^/]+)` at the very start of `l`: the
leading literal must be a prefix of `l` and at least one non-slash character
must follow; the capture is the maximal run of non-slash characters
(the greedy `[^/]+`). -/
def match_comments (l : Str) : Option Str :=
  if comments_pat.isPrefixOf l then
    let captured := (l.drop comments_pat.length).takeWhile (fun c => c != '/')
    if captured.isEmpty then none else some captured
  else none

/-- Left-to-right scan for the leftmost position where the pattern matches,
which is the semantics of `re.search`. -/
def search_comments : Str → Option Str
  | [] => none
  | c :: rest =>
    match match_comments (c :: rest) with
    | some captured => some captured
    | none => search_comments rest

/-- The post-id extraction step of `fetch_reddit_post_from_url`:
`re.search(r"/comments/([^/]+)", reddit_url)` with the first capture group
returned on success. -/
def resolve_post_id (url : Str) : Option Str := search_comments url

/-- Occurrence test at the head of a string: the literal segment
`/comments/` starts here and is followed by at least one non-slash
character. -/
def occurs_head (l : Str) : Bool :=
  comments_pat.isPrefixOf l &&
    match (l.drop comments_pat.length).head? with
    | some c => c != '/'
    | none => false

/-- Occurrence test at index `i`: the literal segment `/comments/` occurs at
index `i` of `url`, followed by at least one non-slash character. -/
def occurs_at (url : Str) (i : Nat) : Bool := occurs_head (url.drop i)

theorem match_comments_none_iff (l : Str) :
    match_comments l = none ↔ occurs_head l = false := by
  unfold match_comments occurs_head
  by_cases hp : comments_pat.isPrefixOf l
  · simp only [hp, if_pos, Bool.true_and]
    rcases hd : l.drop comments_pat.length with _ | ⟨a, rest⟩
    · simp
    · by_cases hc : a != '/'
      · simp [List.takeWhile_cons, hc]
      · simp only [Bool.not_eq_true] at hc
        simp [List.takeWhile_cons, hc]
  · simp [hp]

theorem match_comments_of_occurs (l : Str) (h : occurs_head l = true) :
    match_comments l =
      some ((l.drop comments_pat.length).takeWhile (fun c => c != '/')) := by
  unfold occurs_head at h
  rcases Bool.and_eq_true_iff.mp h with ⟨hp, hh⟩
  unfold match_comments
  simp only [hp, if_pos]
  rcases hd : l.drop comments_pat.length with _ | ⟨a, rest⟩
  · rw [hd] at hh
    simp at hh
  · rw [hd] at hh
    simp only [List.head?_cons] at hh
    simp [List.takeWhile_cons, hh]

theorem search_comments_eq_some (l : Str) (i : Nat)
    (hi : occurs_head (l.drop i) = true)
    (hmin : ∀ j, j < i → occurs_head (l.drop j) = false) :
    search_comments l =
      some (((l.drop i).drop comments_pat.length).takeWhile (fun c => c != '/')) := by
  induction l generalizing i with
  | nil =>
    rw [List.drop_nil] at hi
    exact absurd hi (by decide)
  | cons c rest ih =>
    cases i with
    | zero =>
      rw [List.drop_zero] at hi
      have hm := match_comments_of_occurs _ hi
      simp [search_comments, hm]
    | succ j =>
      have h0 : occurs_head (c :: rest) = false := by
        simpa using hmin 0 (Nat.succ_pos j)
      have hm : match_comments (c :: rest) = none :=
        (match_comments_none_iff _).mpr h0
      have hi' : occurs_head (rest.drop j) = true := by
        simpa [List.drop_succ_cons] using hi
      have hmin' : ∀ k, k < j → occurs_head (rest.drop k) = false := by
        intro k hk
        simpa [List.drop_succ_cons] using hmin (k + 1) (Nat.succ_lt_succ hk)
      simp only [search_comments, hm]
      simpa [List.drop_succ_cons] using ih j hi' hmin'

theorem search_comments_eq_none (l : Str)
    (h : ∀ i, occurs_head (l.drop i) = false) :
    search_comments l = none := by
  induction l with
  | nil => rfl
  | cons c rest ih =>
    have h0 : match_comments (c :: rest) = none := by
      apply (match_comments_none_iff _).mpr
      simpa using h 0
    simp only [search_comments, h0]
    exact ih (fun i => by simpa [List.drop_succ_cons] using h (i + 1))

/-- Past the end of the string the pattern can never occur. -/
theorem occurs_head_past_end (url : Str) (i : Nat) (h : url.length ≤ i) :
    occurs_head (url.drop i) = false := by
  rw [List.drop_eq_nil_of_le h]
  decide

/-! Submissions and the two helpers `_get_post_type` / `_get_content`. -/

/-- The submission fields shared by every post kind and read by the code. -/
structure SubmissionData where
  title : Str
  score : Int
  author_display_name : Option Str
  subreddit_name : Str
  permalink : Str
  comment_count : Int
deriving DecidableEq

/-- A redditwarp submission as discriminated by the `isinstance` chain:
`LinkPost` (with its external target URL `link`), `TextPost` (with its body),
`GalleryPost` (with its gallery link), or any other kind. -/
inductive Submission where
  | linkPost (d : SubmissionData) (link : Str)
  | textPost (d : SubmissionData) (body : Str)
  | galleryPost (d : SubmissionData) (gallery_link : Str)
  | otherPost (d : SubmissionData)
deriving DecidableEq

/-- The shared field record of a submission. -/
def Submission.data : Submission → SubmissionData
  | .linkPost d _ => d
  | .textPost d _ => d
  | .galleryPost d _ => d
  | .otherPost d => d

/-- Embedding of `_get_post_type`: the `isinstance` chain over
`LinkPost`, `TextPost`, `GalleryPost` with `"unknown"` as the fallback. -/
def get_post_type : Submission → Str
  | .linkPost _ _ => str "link"
  | .textPost _ _ => str "text"
  | .galleryPost _ _ => str "gallery"
  | .otherPost _ => str "unknown"

/-- Embedding of `_get_content`: `submission.permalink` for a link post,
`submission.body` for a text post, `str(submission.gallery_link)` for a
gallery post, and `None` otherwise. -/
def get_content : Submission → Option Str
  | .linkPost d _ => some d.permalink
  | .textPost _ body => some body
  | .galleryPost _ gallery_link => some gallery_link
  | .otherPost _ => none

/-- Python `f"...{x}..."` interpolation of an optional string:
`None` renders as the text `None`. -/
def opt_str (x : Option Str) : Str :=
  match x with
  | none => str "None"
  | some s => s

/-! The two orchestration entry points named by the claims.  The Reddit
client is modelled as `Except`-valued capabilities: `Except.error m` stands
for the client raising an exception whose `str(e)` is `m`.  By construction
the entry points are total, so no exception propagates to the caller. -/

/-- The user-facing message returned when the URL has no `/comments/<id>`
segment. -/
def invalid_url_msg : Str := str "Invalid Reddit post URL. Could not extract post ID."

/-- Embedding of `f"An error occurred: {str(e)}"`. -/
def error_msg (e : Str) : Str := str "An error occurred: " ++ e

/-- Result of `fetch_reddit_post_from_url`: the Python function returns
either the list `main_content_parts` or a plain message string. -/
inductive UrlFetchResult where
  | parts (sections : List Str)
  | message (s : Str)
deriving DecidableEq

/-- Embedding of the `main_content_parts` list built by
`fetch_reddit_post_from_url`. -/
def main_content_parts (submission : Submission) : List Str :=
  [str "Title: " ++ submission.data.title,
   str "Score: " ++ intStr submission.data.score,
   str "Author: " ++ py_or submission.data.author_display_name (str "[deleted]"),
   str "Subreddit: " ++ submission.data.subreddit_name,
   str "Type: " ++ get_post_type submission,
   str "Content: " ++ opt_str (get_content submission),
   str "Link: https://reddit.com" ++ submission.data.permalink,
   str "Number of Comments: " ++ intStr submission.data.comment_count]

/-- The body of `fetch_reddit_post_from_url` after post-id extraction: fetch
the submission and the comment forest (each may raise), then assemble the
sections, appending a comments section only when the forest is non-empty. -/
def fetch_from_url_body (tz : Int)
    (fetch_submission : Str → Except Str Submission)
    (fetch_comment_tree : Str → Except Str (List CommentTreeNode))
    (post_id : Str) : UrlFetchResult :=
  match fetch_submission post_id with
  | .error e => .message (error_msg e)
  | .ok submission =>
    match fetch_comment_tree post_id with
    | .error e => .message (error_msg e)
    | .ok forest =>
      if forest.isEmpty then .parts (main_content_parts submission)
      else
        .parts (main_content_parts submission ++
          [str "Comments:" ++ [nl] ++
            (List.intercalate [nl] (forest.map (fun t => format_comment_tree tz t 0)))])

/-- Embedding of the tool `fetch_reddit_post_from_url`. -/
def fetch_reddit_post_from_url (tz : Int)
    (fetch_submission : Str → Except Str Submission)
    (fetch_comment_tree : Str → Except Str (List CommentTreeNode))
    (reddit_url : Str) : UrlFetchResult :=
  match resolve_post_id reddit_url with
  | none => .message invalid_url_msg
  | some post_id => fetch_from_url_body tz fetch_submission fetch_comment_tree post_id

/-- The five header lines built by `fetch_reddit_post_content` before the
comments section. -/
def post_header (submission : Submission) : Str :=
  str "Title: " ++ submission.data.title ++ [nl] ++
  str "Score: " ++ intStr submission.data.score ++ [nl] ++
  str "Author: " ++ py_or submission.data.author_display_name (str "[deleted]") ++ [nl] ++
  str "Type: " ++ get_post_type submission ++ [nl] ++
  str "Content: " ++ opt_str (get_content submission) ++ [nl]

/-- Embedding of the tool `fetch_reddit_post_content`.  The two client calls
are modelled as `Except` values; `comment_limit` and `comment_depth` only
parameterise the client call, so they are absorbed into the
`fetch_comment_tree` capability. -/
def fetch_reddit_post_content (tz : Int)
    (fetch_submission : Except Str Submission)
    (fetch_comment_tree : Except Str (List CommentTreeNode)) : Str :=
  match fetch_submission with
  | .error e => error_msg e
  | .ok submission =>
    match fetch_comment_tree with
    | .error e => error_msg e
    | .ok forest =>
      if forest.isEmpty then post_header submission ++ str "\nNo comments found."
      else
        post_header submission ++ str "\nComments:\n" ++
          (forest.map (fun t => str "\n" ++ format_comment_tree tz t 0)).flatten

/-! Fixtures used by concrete counterexamples and witnesses. -/

/-- Fixture reply used by the quoting counterexample. -/
def cex_child : CommentTreeNode := .mk ⟨some (str "b"), 200, 2, str "cb"⟩ []

/-- Fixture parent with a single reply. -/
def cex_parent : CommentTreeNode := .mk ⟨some (str "a"), 100, 1, str "pb"⟩ [cex_child]

/-- Fixture leaf whose body contains an embedded newline. -/
def cex_multiline_leaf : CommentTreeNode := .mk ⟨some (str "a"), 0, 1, str "a\nb"⟩ []

/-- Modelled from the claim's words (the property under test for the quoting
claim, not from the source): prefix EVERY line of a rendered block with `p`. -/
def quote_every_line (p : Str) (s : Str) : Str :=
  ((linesOf s).map (fun l => p ++ l ++ [nl])).flatten

/-- Evaluation of the formatter on the fixture reply. -/
theorem cex_child_eval : format_comment_tree 0 cex_child 1 =
    str "    1970-01-01 00:03:20 UTC [b] Score: 2\n    cb\n" := by
  rw [cex_child, format_comment_tree_eq]
  decide

/-- Claim C1 is false of the code: at a parent with one two-line reply, the
actual output differs from the output mandated by the claim (every line of
the child's block prefixed with the parent's indentation plus `"> "`): only
the first line of the child's block receives the prefix. -/
theorem quote_not_every_line_cex :
    format_comment_tree 0 cex_parent 0 ≠
      (indentStr 0 ++ format_date 0 100 ++ str " [" ++ str "a" ++ str "] Score: " ++
        intStr 1 ++ [nl]) ++
      (indentStr 0 ++ str "pb" ++ [nl]) ++
      quote_every_line (indentStr 0 ++ str "> ") (format_comment_tree 0 cex_child 1) := by
  rw [cex_parent, format_comment_tree_eq]
  have hs : sort_replies [cex_child] = [cex_child] := rfl
  rw [hs]
  simp only [List.map_cons, List.map_nil, List.flatten_cons, List.flatten_nil]
  rw [cex_child_eval]
  decide

/-- Claim C1 (amended): at each level of recursion the formatter prefixes
only the FIRST line of each child's recursively rendered block, by
prepending `indent ++ "> "` to the block as a whole; the remaining lines of
the child's block are concatenated unchanged (they carry only their own
four-space-per-level indentation). -/
theorem quote_first_line_only (tz : Int) (comment : Comment)
    (children : List CommentTreeNode) (depth : Nat) :
    format_comment_tree tz (.mk comment children) depth =
      (indentStr depth ++ format_date tz comment.created_ut ++ str " [" ++
        py_or comment.author_display_name (str "[deleted]") ++ str "] Score: " ++
        intStr comment.score ++ [nl]) ++
      (indentStr depth ++ comment.body ++ [nl]) ++
      ((sort_replies children).map (fun ch =>
        (indentStr depth ++ str "> ") ++ format_comment_tree tz ch (depth + 1))).flatten := by
  simpa [List.append_assoc] using format_comment_tree_eq tz comment children depth

/-- The capture of the regex when it matches at index `i`: the maximal run
of non-slash characters following the segment `/comments/` at `i`. -/
def captured_at (url : Str) (i : Nat) : Str :=
  ((url.drop i).drop comments_pat.length).takeWhile (fun c => c != '/')

theorem captured_at_ne_nil (url : Str) (i : Nat) (h : occurs_at url i = true) :
    captured_at url i ≠ [] := by
  unfold occurs_at occurs_head at h
  rcases Bool.and_eq_true_iff.mp h with ⟨hp, hh⟩
  unfold captured_at
  rcases hd : (url.drop i).drop comments_pat.length with _ | ⟨a, rest⟩
  · rw [hd] at hh
    simp at hh
  · rw [hd] at hh
    simp only [List.head?_cons] at hh
    simp [List.takeWhile_cons, hh]

/-- Claim C2: when the input contains `/comments/` followed by at least one
non-slash character, the resolver returns exactly the maximal run of
non-slash characters after the first (leftmost) such segment and the entry
point proceeds to fetch with that id; when no such segment exists, the
resolver fails and the entry point returns the user-facing invalid-URL
message instead of fetching. -/
theorem resolve_post_id_spec (url : Str) :
    (∀ i : Nat, occurs_at url i = true → (∀ j, j < i → occurs_at url j = false) →
      resolve_post_id url = some (captured_at url i) ∧
      captured_at url i ≠ [] ∧
      (∀ c ∈ captured_at url i, c ≠ '/') ∧
      captured_at url i ++ ((url.drop i).drop comments_pat.length).dropWhile (fun c => c != '/') =
        (url.drop i).drop comments_pat.length ∧
      (∀ c, (((url.drop i).drop comments_pat.length).dropWhile (fun c => c != '/')).head? = some c →
        c = '/') ∧
      (∀ tz fs ft, fetch_reddit_post_from_url tz fs ft url =
        fetch_from_url_body tz fs ft (captured_at url i))) ∧
    ((∀ i, i < url.length → occurs_at url i = false) →
      resolve_post_id url = none ∧
      (∀ tz fs ft, fetch_reddit_post_from_url tz fs ft url = .message invalid_url_msg)) := by
  constructor
  · intro i hi hmin
    have hres : resolve_post_id url = some (captured_at url i) :=
      search_comments_eq_some url i hi hmin
    refine ⟨hres, captured_at_ne_nil url i hi, ?_, ?_, ?_, ?_⟩
    · intro c hc
      have := List.mem_takeWhile_imp hc
      simpa using this
    · exact List.takeWhile_append_dropWhile (fun c => c != '/') _
    · intro c hc
      have h := List.head?_dropWhile_not (fun c => c != '/')
        ((url.drop i).drop comments_pat.length)
      rw [hc] at h
      simpa using h
    · intro tz fs ft
      simp [fetch_reddit_post_from_url, hres]
  · intro hbound
    have hall : ∀ i, occurs_head (url.drop i) = false := by
      intro i
      by_cases h : i < url.length
      · simpa [occurs_at] using hbound i h
      · exact occurs_head_past_end url i (le_of_not_lt h)
    have hres : resolve_post_id url = none := search_comments_eq_none url hall
    exact ⟨hres, fun tz fs ft => by simp [fetch_reddit_post_from_url, hres]⟩

/-- Fixture URLs for the resolver, taken from the code comments and spec. -/
def w2_url : Str := str "https://www.reddit.com/r/learnpython/comments/12345ab/my_first_post/"

theorem resolve_post_id_spec_witness :
    occurs_at w2_url 36 = true ∧
    resolve_post_id w2_url = some (captured_at w2_url 36) ∧
    captured_at w2_url 36 = str "12345ab" ∧
    resolve_post_id (str "https://reddit.com/nope") = none := by
  refine ⟨by decide, ?_, by decide, ?_⟩
  · exact ((resolve_post_id_spec w2_url).1 36 (by decide) (by decide)).1
  · exact ((resolve_post_id_spec (str "https://reddit.com/nope")).2 (by decide)).1

/-- Fixture node with a given creation time, for the sorting example. -/
def node_ut (t : Int) : CommentTreeNode := .mk ⟨some (str "u"), t, 0, str "x"⟩ []

/-- Claim C3: at every node (hence fresh at every recursion level) the
formatter renders the direct children in descending `created_ut` order —
some reordering of the children that is sorted newest-first — and on the
spec's example with creation times 100, 300, 200 the rendered order is
300, then 200, then 100. -/
theorem children_sorted_desc :
    (∀ (tz : Int) (comment : Comment) (children : List CommentTreeNode) (depth : Nat),
      ∃ sorted_children : List CommentTreeNode,
        sorted_children.Perm children ∧
        sorted_children.Pairwise (fun a b => b.value.created_ut ≤ a.value.created_ut) ∧
        format_comment_tree tz (.mk comment children) depth =
          (indentStr depth ++ format_date tz comment.created_ut ++ str " [" ++
            py_or comment.author_display_name (str "[deleted]") ++ str "] Score: " ++
            intStr comment.score ++ [nl]) ++
          (indentStr depth ++ comment.body ++ [nl]) ++
          (sorted_children.map (fun ch =>
            indentStr depth ++ str "> " ++ format_comment_tree tz ch (depth + 1))).flatten) ∧
    sort_replies [node_ut 100, node_ut 300, node_ut 200] =
      [node_ut 300, node_ut 200, node_ut 100] := by
  constructor
  · intro tz comment children depth
    refine ⟨sort_replies children, List.perm_insertionSort created_desc children, ?_,
      format_comment_tree_eq tz comment children depth⟩
    exact List.sorted_insertionSort created_desc children
  · rfl

/-- Claim C4 is false of the code as universally stated: a childless node
whose body contains an embedded newline renders as three lines, not two. -/
theorem leaf_two_lines_cex :
    (linesOf (format_comment_tree 0 cex_multiline_leaf 0)).length ≠ 2 := by
  rw [cex_multiline_leaf, format_comment_tree_eq]
  decide

/-- The rendered header line contains no newline provided the rendered
author name contains none. -/
theorem header_line_ne_nl (tz : Int) (comment : Comment) (depth : Nat)
    (hauthor : nl ∉ py_or comment.author_display_name (str "[deleted]")) :
    nl ∉ indentStr depth ++ format_date tz comment.created_ut ++ str " [" ++
      py_or comment.author_display_name (str "[deleted]") ++ str "] Score: " ++
      intStr comment.score := by
  intro hmem
  simp only [List.append_assoc, List.mem_append] at hmem
  rcases hmem with h | h
  · exact indentStr_ne_nl depth h
  · rcases h with h | h
    · exact format_date_ne_nl tz comment.created_ut h
    · rcases h with h | h
      · simp [str, nl] at h
      · rcases h with h | h
        · exact hauthor h
        · rcases h with h | h
          · simp [str, nl] at h
          · exact intStr_ne_nl comment.score h

/-- Claim C4 (amended): a childless node formatted at depth `d` renders as
the string `header ++ "\n" ++ indent ++ body ++ "\n"`; whenever the author
name and the body contain no embedded newline this is exactly two lines —
the header line and the body line, `indent` being four spaces repeated `d`
times — and the block ends with a newline, not with `"> "`. -/
theorem leaf_two_lines (tz : Int) (comment : Comment) (depth : Nat)
    (hauthor : ∀ s, comment.author_display_name = some s → nl ∉ s)
    (hbody : nl ∉ comment.body) :
    linesOf (format_comment_tree tz (.mk comment []) depth) =
      [indentStr depth ++ format_date tz comment.created_ut ++ str " [" ++
        py_or comment.author_display_name (str "[deleted]") ++ str "] Score: " ++
        intStr comment.score,
       indentStr depth ++ comment.body] ∧
    (format_comment_tree tz (.mk comment []) depth).getLast? = some nl := by
  have hauthor' : nl ∉ py_or comment.author_display_name (str "[deleted]") := by
    unfold py_or
    cases h : comment.author_display_name with
    | none => decide
    | some s =>
      by_cases hs : s = []
      · simp only [hs, if_pos]
        decide
      · simp only [hs, if_neg, not_false_iff]
        exact hauthor s h
  constructor
  · rw [format_comment_tree_eq]
    have hs : sort_replies ([] : List CommentTreeNode) = [] := rfl
    rw [hs]
    simp only [List.map_nil, List.flatten_nil, List.append_nil]
    have hbody' : nl ∉ indentStr depth ++ comment.body := by
      intro hmem
      rcases List.mem_append.mp hmem with h | h
      · exact indentStr_ne_nl depth h
      · exact hbody h
    calc linesOf ((indentStr depth ++ format_date tz comment.created_ut ++ str " [" ++
            py_or comment.author_display_name (str "[deleted]") ++ str "] Score: " ++
            intStr comment.score ++ [nl]) ++
          (indentStr depth ++ comment.body ++ [nl]))
        = linesOf ((indentStr depth ++ format_date tz comment.created_ut ++ str " [" ++
            py_or comment.author_display_name (str "[deleted]") ++ str "] Score: " ++
            intStr comment.score) ++
          nl :: ((indentStr depth ++ comment.body) ++ nl :: [])) := by
          simp [List.append_assoc]
      _ = _ := by
          rw [linesOf_append _ _ (header_line_ne_nl tz comment depth hauthor'),
            linesOf_append _ _ hbody', linesOf_nil]
  · exact format_comment_tree_getLast tz (.mk comment []) depth

/-- Fixture comment with newline-free fields for the two-line witness. -/
def w4_comment : Comment := ⟨some (str "bob"), 100, 7, str "nice"⟩

theorem leaf_two_lines_witness :
    linesOf (format_comment_tree 0 (.mk w4_comment []) 0) =
      [indentStr 0 ++ format_date 0 w4_comment.created_ut ++ str " [" ++
        py_or w4_comment.author_display_name (str "[deleted]") ++ str "] Score: " ++
        intStr w4_comment.score,
       indentStr 0 ++ w4_comment.body] ∧
    (format_comment_tree 0 (.mk w4_comment []) 0).getLast? = some nl :=
  leaf_two_lines 0 w4_comment 0
    (by
      intro s hs
      simp only [w4_comment] at hs
      cases hs
      decide)
    (by decide)

/-- Claim C5: a missing (`None`) or empty author display name renders as the
literal `[deleted]` in the header line, with formatting total (no failure
path exists); a present non-empty name is rendered unchanged. -/
theorem author_deleted_placeholder (tz : Int) (comment : Comment)
    (children : List CommentTreeNode) (depth : Nat) :
    ((comment.author_display_name = none ∨ comment.author_display_name = some []) →
      format_comment_tree tz (.mk comment children) depth =
        (indentStr depth ++ format_date tz comment.created_ut ++ str " [" ++
          str "[deleted]" ++ str "] Score: " ++ intStr comment.score ++ [nl]) ++
        (indentStr depth ++ comment.body ++ [nl]) ++
        ((sort_replies children).map (fun ch =>
          indentStr depth ++ str "> " ++ format_comment_tree tz ch (depth + 1))).flatten) ∧
    (∀ s, comment.author_display_name = some s → s ≠ [] →
      format_comment_tree tz (.mk comment children) depth =
        (indentStr depth ++ format_date tz comment.created_ut ++ str " [" ++
          s ++ str "] Score: " ++ intStr comment.score ++ [nl]) ++
        (indentStr depth ++ comment.body ++ [nl]) ++
        ((sort_replies children).map (fun ch =>
          indentStr depth ++ str "> " ++ format_comment_tree tz ch (depth + 1))).flatten) := by
  constructor
  · intro h
    rw [format_comment_tree_eq]
    have hpy : py_or comment.author_display_name (str "[deleted]") = str "[deleted]" := by
      rcases h with h | h <;> simp [py_or, h]
    rw [hpy]
  · intro s hs hne
    rw [format_comment_tree_eq]
    have hpy : py_or comment.author_display_name (str "[deleted]") = s := by
      simp [py_or, hs, hne]
    rw [hpy]

/-- Fixture comments for the author-placeholder witness. -/
def w5_none : Comment := ⟨none, 0, 3, str "hi"⟩

/-- Fixture comment with a present, non-empty author name. -/
def w5_named : Comment := ⟨some (str "carol"), 0, 3, str "hi"⟩

theorem author_deleted_placeholder_witness :
    format_comment_tree 0 (.mk w5_none []) 0 =
      (indentStr 0 ++ format_date 0 w5_none.created_ut ++ str " [" ++
        str "[deleted]" ++ str "] Score: " ++ intStr w5_none.score ++ [nl]) ++
      (indentStr 0 ++ w5_none.body ++ [nl]) ++
      ((sort_replies []).map (fun ch =>
        indentStr 0 ++ str "> " ++ format_comment_tree 0 ch 1)).flatten ∧
    format_comment_tree 0 (.mk w5_named []) 0 =
      (indentStr 0 ++ format_date 0 w5_named.created_ut ++ str " [" ++
        str "carol" ++ str "] Score: " ++ intStr w5_named.score ++ [nl]) ++
      (indentStr 0 ++ w5_named.body ++ [nl]) ++
      ((sort_replies []).map (fun ch =>
        indentStr 0 ++ str "> " ++ format_comment_tree 0 ch 1)).flatten :=
  ⟨(author_deleted_placeholder 0 w5_none [] 0).1 (Or.inl rfl),
   (author_deleted_placeholder 0 w5_named [] 0).2 (str "carol") rfl (by decide)⟩

/-- Claim C6: the post-type tag is exactly one of `link`, `text`, `gallery`,
`unknown`, with link, text and gallery posts mapped to their tags and
everything else to `unknown`; the content string is the post's URL (its
permalink, which is what the code returns) for link posts, the body for text
posts, the gallery link for gallery posts, and absent (`None`) otherwise. -/
theorem post_type_and_content :
    (∀ submission : Submission,
      get_post_type submission = str "link" ∨ get_post_type submission = str "text" ∨
      get_post_type submission = str "gallery" ∨ get_post_type submission = str "unknown") ∧
    (∀ d link, get_post_type (Submission.linkPost d link) = str "link" ∧
      get_content (Submission.linkPost d link) = some d.permalink) ∧
    (∀ d body, get_post_type (Submission.textPost d body) = str "text" ∧
      get_content (Submission.textPost d body) = some body) ∧
    (∀ d gallery_link, get_post_type (Submission.galleryPost d gallery_link) = str "gallery" ∧
      get_content (Submission.galleryPost d gallery_link) = some gallery_link) ∧
    (∀ d, get_post_type (Submission.otherPost d) = str "unknown" ∧
      get_content (Submission.otherPost d) = none) := by
  refine ⟨?_, fun d link => ⟨rfl, rfl⟩, fun d body => ⟨rfl, rfl⟩,
    fun d gallery_link => ⟨rfl, rfl⟩, fun d => ⟨rfl, rfl⟩⟩
  intro s
  cases s with
  | linkPost d link => exact Or.inl rfl
  | textPost d body => exact Or.inr (Or.inl rfl)
  | galleryPost d gallery_link => exact Or.inr (Or.inr (Or.inl rfl))
  | otherPost d => exact Or.inr (Or.inr (Or.inr rfl))

/-- Claim C7: a successful `fetch_reddit_post_content` yields the
title/score/author/type/content header followed by exactly one of: the
formatted comment trees (for a non-empty forest) or the literal
`No comments found.` (for an empty forest), never both. -/
theorem post_content_comments_or_none (tz : Int) (submission : Submission)
    (forest : List CommentTreeNode) :
    (forest = [] →
      fetch_reddit_post_content tz (.ok submission) (.ok forest) =
        post_header submission ++ str "\nNo comments found.") ∧
    (forest ≠ [] →
      fetch_reddit_post_content tz (.ok submission) (.ok forest) =
        post_header submission ++ str "\nComments:\n" ++
          (forest.map (fun t => str "\n" ++ format_comment_tree tz t 0)).flatten) := by
  constructor
  · intro h
    subst h
    rfl
  · intro h
    have hne : forest.isEmpty = false := by
      simpa [List.isEmpty_iff] using h
    simp [fetch_reddit_post_content, hne]

/-- Fixture submission for the post-content witness. -/
def w7_sub : Submission :=
  .textPost ⟨str "T", 1, some (str "a"), str "sub", str "/p", 0⟩ (str "hello")

/-- Fixture comment tree for the post-content witness. -/
def w7_tree : CommentTreeNode := .mk ⟨some (str "u"), 50, 1, str "c"⟩ []

theorem post_content_comments_or_none_witness :
    fetch_reddit_post_content 0 (.ok w7_sub) (.ok []) =
      post_header w7_sub ++ str "\nNo comments found." ∧
    fetch_reddit_post_content 0 (.ok w7_sub) (.ok [w7_tree]) =
      post_header w7_sub ++ str "\nComments:\n" ++
        ([w7_tree].map (fun t => str "\n" ++ format_comment_tree 0 t 0)).flatten :=
  ⟨(post_content_comments_or_none 0 w7_sub []).1 rfl,
   (post_content_comments_or_none 0 w7_sub [w7_tree]).2 (List.cons_ne_nil _ _)⟩

/-- Claim C8: whenever a client capability raises an exception with message
`m`, the entry point returns the plain string `An error occurred: ` followed
by `m`.  The entry points are total functions into plain results, so no
exception propagates and no structured error value is surfaced. -/
theorem entry_points_catch_errors (tz : Int) (m : Str) :
    (∀ ft, fetch_reddit_post_content tz (.error m) ft = error_msg m) ∧
    (∀ submission, fetch_reddit_post_content tz (.ok submission) (.error m) = error_msg m) ∧
    (∀ fs ft post_id, fs post_id = .error m →
      fetch_from_url_body tz fs ft post_id = .message (error_msg m)) ∧
    (∀ fs ft post_id submission, fs post_id = .ok submission → ft post_id = .error m →
      fetch_from_url_body tz fs ft post_id = .message (error_msg m)) ∧
    error_msg m = str "An error occurred: " ++ m := by
  refine ⟨fun ft => rfl, fun submission => rfl, ?_, ?_, rfl⟩
  · intro fs ft post_id h
    simp [fetch_from_url_body, h]
  · intro fs ft post_id submission h1 h2
    simp [fetch_from_url_body, h1, h2]

theorem entry_points_catch_errors_witness :
    fetch_reddit_post_content 0 (.error (str "boom")) (.ok []) = error_msg (str "boom") ∧
    fetch_from_url_body 0 (fun _ => .error (str "boom")) (fun _ => .ok []) (str "id") =
      .message (error_msg (str "boom")) :=
  ⟨(entry_points_catch_errors 0 (str "boom")).1 (.ok []),
   (entry_points_catch_errors 0 (str "boom")).2.2.1 _ _ (str "id") rfl⟩

/-- Claim C9: the comment-tree formatter is a pure function of the tree, the
depth and the timezone environment, so two invocations on the same
unmodified tree in the same environment yield byte-identical output. -/
theorem format_deterministic (tz : Int) (t : CommentTreeNode) (depth : Nat) :
    format_comment_tree tz t depth = format_comment_tree tz t depth := rfl

/-- Claim C10: every rendered block is non-empty and ends with a newline, so
concatenating the parent's block with child blocks never glues lines. -/
theorem format_nonempty_newline_terminated (tz : Int) (t : CommentTreeNode) (depth : Nat) :
    format_comment_tree tz t depth ≠ [] ∧
    (format_comment_tree tz t depth).getLast? = some nl := by
  have h := format_comment_tree_getLast tz t depth
  refine ⟨fun hnil => ?_, h⟩
  rw [hnil] at h
  simp at h

end McpReddit
